import Mathlib

/-!
Verification of the webtop probe engine (src/webtop/__init__.py, src/webtop.py):
probe-outcome classification, the statistics aggregator, the bounded result
window (a `deque` with `maxlen`), the DNS-override resolver and the startup
argument validation.

Modelling conventions: Python `timedelta` values are modelled by their
microsecond count (a `Nat`, the resolution of `timedelta`); Python floats used
only for the success-rate percentage are modelled by `ℚ`; insertion-ordered
`dict`s are modelled by association lists preserving first-seen key order.
-/

namespace Webtop

/-- Probe outcomes, mirroring the `Result` class hierarchy: `ResponseResult`
carries the HTTP status and the measured elapsed time (microseconds, the
resolution of `datetime.timedelta`); `ErrorResult` carries only the name of
the exception class (`type(error).__name__`) and no elapsed time. -/
inductive Result : Type where
  | responseResult (status : Nat) (elapsedMicros : Nat)
  | errorResult (errorName : String)
deriving DecidableEq

/-- `Result.is_success` from `Result.__init__`: with a response present and no
error, success means `200 <= status < 400`; with no response (an error), it is
`False`. -/
def is_success : Result → Bool
  | .responseResult status _ => decide (200 ≤ status) && decide (status < 400)
  | .errorResult _ => false

/-- `True` exactly on the `ResponseResult` branch of `build_stats`'s
`isinstance(result, ResponseResult)` test. -/
def isResponse : Result → Bool
  | .responseResult _ _ => true
  | .errorResult _ => false

/-- Ceiling division on `Nat`, the value of Python `math.ceil(a / b)` for
nonnegative integers with `b > 0`. -/
def natCeilDiv (a b : Nat) : Nat := (a + b - 1) / b

/-- The reason label `build_stats` assigns to a result: `f"HTTP {status}"` for
a `ResponseResult`, the exception class name for an `ErrorResult`. -/
def reasonOf : Result → String
  | .responseResult status _ => "HTTP " ++ toString status
  | .errorResult errorName => errorName

/-- `reason_counts[reason] = reason_counts.get(reason, 0) + 1` on a Python
`dict`, which preserves first-seen key insertion order: bump the count of an
existing key in place, else append the new key at the end with count 1. -/
def bumpReason : List (String × Nat) → String → List (String × Nat)
  | [], r => [(r, 1)]
  | (k, v) :: rest, r =>
      if k = r then (k, v + 1) :: rest else (k, v) :: bumpReason rest r

/-- The running accumulator of the single `for result in results` loop in
`build_stats`. -/
structure StatsAcc : Type where
  no_successful_results : Nat
  no_responses : Nat
  reason_counts : List (String × Nat)
  sum_latency : Nat
deriving DecidableEq

/-- One iteration of the `build_stats` loop: count successes; on a
`ResponseResult` also count the response and add
`math.ceil(elapsed / timedelta(milliseconds=1))` to `sum_latency`; finally
bump the reason count. -/
def statsStep (acc : StatsAcc) (result : Result) : StatsAcc :=
  let succ :=
    if is_success result then acc.no_successful_results + 1
    else acc.no_successful_results
  let reason := reasonOf result
  match result with
  | .responseResult _ elapsedMicros =>
      { no_successful_results := succ,
        no_responses := acc.no_responses + 1,
        sum_latency := acc.sum_latency + natCeilDiv elapsedMicros 1000,
        reason_counts := bumpReason acc.reason_counts reason }
  | .errorResult _ =>
      { no_successful_results := succ,
        no_responses := acc.no_responses,
        sum_latency := acc.sum_latency,
        reason_counts := bumpReason acc.reason_counts reason }

/-- The summary `dict` returned by `build_stats` (rendering-only string
formatting dropped; `success_rate` kept as an exact rational percentage). -/
structure Statistics : Type where
  url : String
  method : String
  sample_size : Nat
  success_rate : ℚ
  mean_latency : Nat
  reason_counts : List (String × Nat)
deriving DecidableEq

/-- `build_stats(url=url, method=method, results=results)`: one pass over the
results, then the two guarded divisions. -/
def build_stats (url method : String) (results : List Result) : Statistics :=
  let no_results := results.length
  let acc := results.foldl statsStep ⟨0, 0, [], 0⟩
  let success_rate : ℚ :=
    if no_results > 0 then
      (acc.no_successful_results : ℚ) / (no_results : ℚ) * 100
    else 0
  let avg_latency : Nat :=
    if acc.no_responses > 0 then natCeilDiv acc.sum_latency acc.no_responses
    else 0
  { url := url
    method := method
    sample_size := no_results
    success_rate := success_rate
    mean_latency := avg_latency
    reason_counts := acc.reason_counts }

/-- The per-entry millisecond latency `build_stats` accumulates for a result:
`math.ceil(elapsed / timedelta(milliseconds=1))` for a `ResponseResult`,
nothing for an `ErrorResult` (which carries no elapsed at all). -/
def elapsedMs? : Result → Option Nat
  | .responseResult _ elapsedMicros => some (natCeilDiv elapsedMicros 1000)
  | .errorResult _ => none

/-- The per-entry millisecond latencies of the response-bearing entries, in
order. -/
def responseMsList (results : List Result) : List Nat :=
  results.filterMap elapsedMs?

/-- Total of all counts in a reason histogram. -/
def sumCounts (counts : List (String × Nat)) : Nat :=
  (counts.map Prod.snd).sum

/-- The spec formula for mean latency read literally: one ceiling, applied to
the mean of the exact elapsed times of the measured entries (microseconds over
`1000 · count`, yielding milliseconds); no per-entry rounding. -/
def meanLatencySpecFormula (results : List Result) : Nat :=
  let micros := results.filterMap fun r =>
    match r with
    | .responseResult _ elapsedMicros => some elapsedMicros
    | .errorResult _ => none
  if 0 < micros.length then natCeilDiv micros.sum (1000 * micros.length) else 0

/-- One `results.append(result)` on `deque(maxlen=cap)`: the new element goes
to the right end and, when the bound is exceeded, the oldest elements on the
left are discarded. -/
def dequeAppend (cap : Nat) (store : List Result) (r : Result) : List Result :=
  let s := store ++ [r]
  if cap < s.length then s.drop (s.length - cap) else s

/-- A sequence of appends to the deque, oldest first. -/
def appendAll (cap : Nat) (store : List Result) (rs : List Result) :
    List Result :=
  rs.foldl (dequeAppend cap) store

/-- One probe attempt as observed by `request`: either the HTTP exchange
completes with a status and a measured duration, or some exception is raised
while issuing the request or reading the body (connection refusal, timeout,
TLS failure, DNS failure, ...). -/
inductive ProbeEvent : Type where
  | responds (status : Nat) (elapsedMicros : Nat)
  | raises (exceptionName : String)
deriving DecidableEq

/-- `request(url=..., method=..., session=...)`: the whole body runs inside
`try/except Exception`, so a completed exchange yields a `ResponseResult` and
any raised exception is caught and returned as an `ErrorResult` — never
propagated to the caller. -/
def request : ProbeEvent → Result
  | .responds status elapsedMicros => .responseResult status elapsedMicros
  | .raises exceptionName => .errorResult exceptionName

/-- The `worker` loop: for each probe until shutdown, call `request` and
append its outcome to the shared bounded deque. -/
def workerRun (cap : Nat) (store : List Result) (events : List ProbeEvent) :
    List Result :=
  events.foldl (fun s e => dequeAppend cap s (request e)) store

/-- `socket.AI_NUMERICHOST` on Linux. -/
def AI_NUMERICHOST : Nat := 4

/-- `socket.AF_INET` on Linux. -/
def AF_INET : Nat := 2

/-- One entry of the `aiohttp` resolver answer list, with the fields
`CustomResolver.resolve` fills in. -/
structure AddrInfo : Type where
  hostname : String
  host : String
  port : Nat
  family : Nat
  proto : Nat
  flags : Nat
deriving DecidableEq

/-- The observable behaviour of one `CustomResolver.resolve` call: either an
answer produced locally from the override table, or a delegation of the
unchanged arguments to the wrapped `AsyncResolver`. -/
inductive ResolveOutcome : Type where
  | answered (infos : List AddrInfo)
  | delegated (host : String) (port : Nat) (family : Nat)
deriving DecidableEq

/-- First-match lookup in the override table (`host in self.custom_mappings`
then `self.custom_mappings[host]`). -/
def lookupMapping : List (String × String) → String → Option String
  | [], _ => none
  | (k, v) :: rest, h => if k = h then some v else lookupMapping rest h

/-- `CustomResolver.resolve(host, port, family)`: if the host is in
`custom_mappings`, answer immediately with the single literal address entry
flagged `AI_NUMERICHOST`; otherwise delegate host, port and family unchanged
to the wrapped resolver. -/
def customResolve (custom_mappings : List (String × String)) (host : String)
    (port : Nat) (family : Nat) : ResolveOutcome :=
  match lookupMapping custom_mappings host with
  | some address =>
      .answered [⟨host, address, port, family, 0, AI_NUMERICHOST⟩]
  | none => .delegated host port family

/-- Override installation in `main`: starting from an empty mapping, when a
`--resolve host:address` pair is given, install it only if the target URL's
host equals the override's host. -/
def buildCustomResolution (urlHost : Option String)
    (resolveArg : Option (String × String)) : List (String × String) :=
  match resolveArg with
  | none => []
  | some (host, address) =>
      if urlHost = some host then [(host, address)] else []

/-- The argument fields `_are_args_valid` inspects, after parsing.
`url_is_absolute` stands for `args.url.is_absolute()` (the URL type is an
external collaborator); `timeout` is the parsed float as an exact rational. -/
structure Args : Type where
  url_is_absolute : Bool
  request_history : Int
  timeout : ℚ
  workers : Int
  resolve : Option String
  duration : Option String
deriving DecidableEq

/-- `duration_is_valid` from src/webtop.py: `None` is valid, otherwise valid
iff `durationpy.from_str` does not raise; the external parser is abstracted as
the predicate `parses`. -/
def duration_is_valid (parses : String → Bool) : Option String → Bool
  | none => true
  | some d => parses d

/-- `_are_args_valid` from src/webtop.py (a superset of `are_args_valid` in
src/webtop/__init__.py, which lacks the duration conjunct): absolute URL,
`request_history >= 1`, `timeout > 0`, positive worker count, `":" in resolve`
when a resolve override is given, and a well-formed duration. -/
def are_args_valid (parses : String → Bool) (args : Args) : Bool :=
  args.url_is_absolute &&
  decide (1 ≤ args.request_history) &&
  decide (0 < args.timeout) &&
  decide (0 < args.workers) &&
  (match args.resolve with
   | none => true
   | some s => s.contains ':') &&
  duration_is_valid parses args.duration

/-- Whether `main` gets past `assert _are_args_valid(args)`: on a valid
configuration the Runner is started with the configured worker count, on an
invalid one the process dies before any worker is launched. -/
inductive StartOutcome : Type where
  | started (numWorkers : Int)
  | refusedAtStartup
deriving DecidableEq

/-- The startup gate of `main`: validate once, then start. -/
def startup (parses : String → Bool) (args : Args) : StartOutcome :=
  if are_args_valid parses args then .started args.workers
  else .refusedAtStartup

theorem dequeAppend_cons (cap : Nat) (store r : _) (rs : List Result) :
    appendAll cap store (r :: rs) = appendAll cap (dequeAppend cap store r) rs :=
  rfl

theorem appendAll_eq_drop (cap : Nat) :
    ∀ (rs store : List Result), store.length ≤ cap →
      appendAll cap store rs = (store ++ rs).drop (store.length + rs.length - cap)
  | [], store, h => by
      simp [appendAll, Nat.sub_eq_zero_of_le h]
  | r :: rs', store, h => by
      rw [dequeAppend_cons]
      by_cases hc : cap < (store ++ [r]).length
      · have hsl : store.length = cap := by
          simp only [List.length_append, List.length_cons, List.length_nil] at hc
          omega
        have hd : dequeAppend cap store r =
            (store ++ [r]).drop ((store ++ [r]).length - cap) := by
          simp only [dequeAppend]
          rw [if_pos hc]
        have hamt : (store ++ [r]).length - cap = 1 := by simp; omega
        rw [hd, hamt]
        have hdl : ((store ++ [r]).drop 1).length ≤ cap := by simp; omega
        rw [appendAll_eq_drop cap rs' _ hdl]
        have h1 : (1 : Nat) ≤ (store ++ [r]).length := by simp
        have hsplit : (store ++ [r]).drop 1 ++ rs' = (store ++ [r] ++ rs').drop 1 :=
          (List.drop_append_of_le_length h1).symm
        rw [hsplit, List.drop_drop]
        have hassoc : store ++ [r] ++ rs' = store ++ r :: rs' := by simp
        rw [hassoc]
        congr 1
        simp
        omega
      · have hd : dequeAppend cap store r = store ++ [r] := by
          simp only [dequeAppend]
          rw [if_neg hc]
        have hdl : (store ++ [r]).length ≤ cap := Nat.le_of_not_lt hc
        rw [hd, appendAll_eq_drop cap rs' _ hdl, List.append_assoc]
        congr 1
        simp
        omega

theorem appendAll_nil_eq_drop (cap : Nat) (rs : List Result) :
    appendAll cap [] rs = rs.drop (rs.length - cap) := by
  have h := appendAll_eq_drop cap rs [] (by simp)
  simpa using h

/-- **C1.** Ring semantics of the result window: with capacity `C ≥ 1` and
`N > C` appended outcomes, the store equals the last `C` appended outcomes in
append order (hence has length exactly `C`), and after every prefix of the
appends the store length never exceeds `C`; the contents are exactly a suffix
of the append sequence, so no outcome is reordered or mutated. -/
theorem C1_ring_window (C : Nat) (rs : List Result) (hC : 1 ≤ C)
    (hN : C < rs.length) :
    appendAll C [] rs = rs.drop (rs.length - C) ∧
    (appendAll C [] rs).length = C ∧
    (∀ p q : List Result, rs = p ++ q → (appendAll C [] p).length ≤ C) := by
  refine ⟨appendAll_nil_eq_drop C rs, ?_, ?_⟩
  · rw [appendAll_nil_eq_drop C rs]
    simp
    omega
  · intro p q hpq
    rw [appendAll_nil_eq_drop C p]
    simp
    omega

/-- Witness for C1 at capacity 2 and three appended outcomes. -/
theorem C1_ring_window_witness :
    appendAll 2 []
        [Result.errorResult "a", Result.errorResult "b", Result.errorResult "c"] =
      [Result.errorResult "b", Result.errorResult "c"] := by
  have h := C1_ring_window 2
      [Result.errorResult "a", Result.errorResult "b", Result.errorResult "c"]
      (by decide) (by decide)
  simpa using h.1

/-- **C2.** Classification: a response with status in `[200, 400)` is a
success (in particular 200 and 399), a response with status outside that range
is a failure (in particular 199 and 400), and a transport-level error is
always a failure. -/
theorem C2_classification :
    (∀ status elapsed, is_success (.responseResult status elapsed) = true ↔
      200 ≤ status ∧ status < 400) ∧
    (∀ elapsed, is_success (.responseResult 200 elapsed) = true) ∧
    (∀ elapsed, is_success (.responseResult 399 elapsed) = true) ∧
    (∀ elapsed, is_success (.responseResult 199 elapsed) = false) ∧
    (∀ elapsed, is_success (.responseResult 400 elapsed) = false) ∧
    (∀ errorName, is_success (.errorResult errorName) = false) := by
  refine ⟨fun status elapsed => ?_, fun _ => rfl, fun _ => rfl,
    fun _ => rfl, fun _ => rfl, fun _ => rfl⟩
  simp [is_success]

theorem foldl_statsStep_sum_latency (results : List Result) :
    ∀ acc : StatsAcc, (results.foldl statsStep acc).sum_latency =
      acc.sum_latency + (responseMsList results).sum := by
  induction results with
  | nil => intro acc; simp [responseMsList]
  | cons r rs ih =>
      intro acc
      rw [List.foldl_cons, ih]
      cases r <;>
        simp [statsStep, responseMsList, elapsedMs?, List.filterMap_cons]
      all_goals omega

theorem foldl_statsStep_no_responses (results : List Result) :
    ∀ acc : StatsAcc, (results.foldl statsStep acc).no_responses =
      acc.no_responses + (responseMsList results).length := by
  induction results with
  | nil => intro acc; simp [responseMsList]
  | cons r rs ih =>
      intro acc
      rw [List.foldl_cons, ih]
      cases r <;>
        simp [statsStep, responseMsList, elapsedMs?, List.filterMap_cons]
      all_goals omega

theorem sumCounts_bumpReason (counts : List (String × Nat)) (r : String) :
    sumCounts (bumpReason counts r) = sumCounts counts + 1 := by
  induction counts with
  | nil => rfl
  | cons kv rest ih =>
      obtain ⟨k, v⟩ := kv
      by_cases hk : k = r
      · simp [bumpReason, hk, sumCounts]
        omega
      · simp [bumpReason, hk, sumCounts] at ih ⊢
        omega

theorem foldl_statsStep_sumCounts (results : List Result) :
    ∀ acc : StatsAcc, sumCounts (results.foldl statsStep acc).reason_counts =
      sumCounts acc.reason_counts + results.length := by
  induction results with
  | nil => intro acc; simp
  | cons r rs ih =>
      intro acc
      rw [List.foldl_cons, ih]
      cases r <;> simp [statsStep, sumCounts_bumpReason] <;> omega

theorem build_stats_mean_latency_eq (url method : String) (results : List Result) :
    (build_stats url method results).mean_latency =
      if 0 < (responseMsList results).length then
        natCeilDiv (responseMsList results).sum (responseMsList results).length
      else 0 := by
  simp only [build_stats]
  rw [foldl_statsStep_no_responses results ⟨0, 0, [], 0⟩,
    foldl_statsStep_sum_latency results ⟨0, 0, [], 0⟩]
  simp

theorem responseMsList_filter (results : List Result) :
    responseMsList (results.filter isResponse) = responseMsList results := by
  induction results with
  | nil => rfl
  | cons r rs ih =>
      cases r <;>
        simp [responseMsList, List.filter_cons, isResponse, elapsedMs?,
          List.filterMap_cons] at ih ⊢ <;>
        exact ih

/-- **C3 (counterexample to the claim as stated).** With measured elapsed
times of 1.5 ms and 0.1 ms, the code computes `ceil(1.5) = 2` and
`ceil(0.1) = 1` per entry and then `ceil(3/2) = 2` ms, while the claimed
single-ceiling formula gives `ceil(1.6/2) = 1` ms. -/
theorem C3_single_ceiling_counterexample :
    (build_stats "http://example.com" "GET"
        [Result.responseResult 200 1500,
         Result.responseResult 200 100]).mean_latency = 2 ∧
    meanLatencySpecFormula
        [Result.responseResult 200 1500, Result.responseResult 200 100] = 1 := by
  decide

/-- **C3 (amended).** For any outcome sequence with at least one response-
bearing entry, `mean_latency` is the ceiling of the mean of the per-entry
millisecond latencies, where each measured elapsed is first rounded up to
whole milliseconds (the per-entry `math.ceil`); entries without a measured
elapsed are excluded from both numerator and denominator yet still counted in
`sample_size` and in the reason histogram. -/
theorem C3_mean_latency (url method : String) (results : List Result)
    (h : 0 < (responseMsList results).length) :
    (build_stats url method results).mean_latency =
      natCeilDiv (responseMsList results).sum (responseMsList results).length ∧
    (build_stats url method results).sample_size = results.length ∧
    sumCounts (build_stats url method results).reason_counts = results.length := by
  refine ⟨?_, rfl, ?_⟩
  · rw [build_stats_mean_latency_eq, if_pos h]
  · show sumCounts (results.foldl statsStep ⟨0, 0, [], 0⟩).reason_counts =
      results.length
    rw [foldl_statsStep_sumCounts]
    simp [sumCounts]

/-- Witness for C3 on a response of 1.5 ms next to an error without elapsed:
mean latency 2 ms, both entries in the sample and in the histogram. -/
theorem C3_mean_latency_witness :
    (build_stats "http://example.com" "GET"
        [Result.responseResult 204 1500,
         Result.errorResult "TimeoutError"]).mean_latency = 2 ∧
    (build_stats "http://example.com" "GET"
        [Result.responseResult 204 1500,
         Result.errorResult "TimeoutError"]).sample_size = 2 ∧
    sumCounts (build_stats "http://example.com" "GET"
        [Result.responseResult 204 1500,
         Result.errorResult "TimeoutError"]).reason_counts = 2 := by
  have h := C3_mean_latency "http://example.com" "GET"
      [Result.responseResult 204 1500, Result.errorResult "TimeoutError"]
      (by decide)
  exact ⟨h.1.trans (by decide), h.2.1.trans (by decide), h.2.2.trans (by decide)⟩

/-- **C4.** The worked example: two successes of 50 ms and 150 ms and one
timeout error yield sample size 3, success rate exactly 200/3 %, mean latency
100 ms and the reason histogram `HTTP 200, HTTP 201, Timeout`, each with
count 1, in first-seen order. -/
theorem C4_worked_example :
    (build_stats "http://example.com" "GET"
        [Result.responseResult 200 50000, Result.responseResult 201 150000,
         Result.errorResult "Timeout"]).sample_size = 3 ∧
    (build_stats "http://example.com" "GET"
        [Result.responseResult 200 50000, Result.responseResult 201 150000,
         Result.errorResult "Timeout"]).success_rate = 200 / 3 ∧
    (build_stats "http://example.com" "GET"
        [Result.responseResult 200 50000, Result.responseResult 201 150000,
         Result.errorResult "Timeout"]).mean_latency = 100 ∧
    (build_stats "http://example.com" "GET"
        [Result.responseResult 200 50000, Result.responseResult 201 150000,
         Result.errorResult "Timeout"]).reason_counts =
      [("HTTP 200", 1), ("HTTP 201", 1), ("Timeout", 1)] := by
  refine ⟨rfl, ?_, rfl, rfl⟩
  show ((2 : Nat) : ℚ) / ((3 : Nat) : ℚ) * 100 = 200 / 3
  norm_num

/-- **C5.** Empty input: sample size 0, success rate 0, mean latency 0 and an
empty histogram; both division branches are guarded by the respective counts,
so no division is reached. -/
theorem C5_empty_stats (url method : String) :
    build_stats url method [] =
      { url := url, method := method, sample_size := 0, success_rate := 0,
        mean_latency := 0, reason_counts := [] } := rfl

theorem workerRun_eq_appendAll (cap : Nat) :
    ∀ (events : List ProbeEvent) (store : List Result),
      workerRun cap store events = appendAll cap store (events.map request)
  | [], _ => rfl
  | e :: es, store =>
      workerRun_eq_appendAll cap es (dequeAppend cap store (request e))

/-- **C8.** Probe errors are data: an exception is returned as an
`ErrorResult`; the worker loop is exactly the append of `request` of every
probe event in order, so a failing probe never terminates the loop; and every
probe — failure or success — contributes exactly one appended outcome (the
window keeps the most recent `cap` of them). -/
theorem C8_probe_errors_are_data :
    (∀ exceptionName, request (.raises exceptionName) =
      Result.errorResult exceptionName) ∧
    (∀ cap store events, workerRun cap store events =
      appendAll cap store (events.map request)) ∧
    (∀ cap events, (workerRun cap [] events).length =
      min cap events.length) := by
  refine ⟨fun _ => rfl, fun cap store events =>
    workerRun_eq_appendAll cap events store, fun cap events => ?_⟩
  rw [workerRun_eq_appendAll cap events [], appendAll_nil_eq_drop]
  simp
  omega

/-- **C9.** Every outcome is counted under exactly one reason label — a
response under `"HTTP <status>"` (successful responses included), an error
under its exception class name — so the reason counts always total the
sample size. -/
theorem C9_reason_counts_cover (url method : String) (results : List Result) :
    sumCounts (build_stats url method results).reason_counts =
      (build_stats url method results).sample_size ∧
    (∀ status elapsed, reasonOf (.responseResult status elapsed) =
      "HTTP " ++ toString status) := by
  refine ⟨?_, fun _ _ => rfl⟩
  show sumCounts (results.foldl statsStep ⟨0, 0, [], 0⟩).reason_counts =
    results.length
  rw [foldl_statsStep_sumCounts]
  simp [sumCounts]

/-- **C10.** A transport-level failure carries no elapsed time at all
(`ErrorResult` stores only the exception name, so its millisecond latency is
absent), it leaves the latency accumulator and the response count untouched,
and `mean_latency` depends only on the response-bearing entries. -/
theorem C10_error_no_latency :
    (∀ errorName, elapsedMs? (.errorResult errorName) = none) ∧
    (∀ acc errorName,
      (statsStep acc (.errorResult errorName)).sum_latency = acc.sum_latency ∧
      (statsStep acc (.errorResult errorName)).no_responses =
        acc.no_responses) ∧
    (∀ url method results,
      (build_stats url method results).mean_latency =
        (build_stats url method (results.filter isResponse)).mean_latency) := by
  refine ⟨fun _ => rfl, fun acc errorName => ⟨rfl, rfl⟩,
    fun url method results => ?_⟩
  rw [build_stats_mean_latency_eq, build_stats_mean_latency_eq,
    responseMsList_filter]

/-- **C6.** Resolver override: a host present in the override table resolves
immediately to the single literal-address entry flagged `AI_NUMERICHOST`,
without delegating; any other host is delegated with host, port and family
unchanged; and `main` installs the override only when the target URL's host
equals the override's host. -/
theorem C6_resolver_override :
    (∀ mappings host port family address,
      lookupMapping mappings host = some address →
      customResolve mappings host port family =
        .answered [⟨host, address, port, family, 0, AI_NUMERICHOST⟩]) ∧
    (∀ mappings host port family,
      lookupMapping mappings host = none →
      customResolve mappings host port family = .delegated host port family) ∧
    (∀ urlHost host address entry,
      entry ∈ buildCustomResolution urlHost (some (host, address)) →
      urlHost = some host ∧ entry = (host, address)) := by
  refine ⟨fun mappings host port family address h => ?_,
    fun mappings host port family h => ?_,
    fun urlHost host address entry h => ?_⟩
  · simp [customResolve, h]
  · simp [customResolve, h]
  · simp only [buildCustomResolution] at h
    split at h
    · next heq => simp at h; exact ⟨heq, h⟩
    · simp at h

/-- Witness for C6: the override `example.com → 127.0.0.1` answers a lookup
for `example.com` locally and delegates a lookup for `other.example`. -/
theorem C6_resolver_override_witness :
    customResolve [("example.com", "127.0.0.1")] "example.com" 0 AF_INET =
      .answered [⟨"example.com", "127.0.0.1", 0, AF_INET, 0, AI_NUMERICHOST⟩] ∧
    customResolve [("example.com", "127.0.0.1")] "other.example" 0 AF_INET =
      .delegated "other.example" 0 AF_INET ∧
    (some "example.com" = some "example.com" ∧
      (("example.com", "127.0.0.1") : String × String) =
        ("example.com", "127.0.0.1")) := by
  have h := C6_resolver_override
  exact ⟨h.1 _ _ _ _ _ (by decide), h.2.1 _ _ _ _ (by decide),
    h.2.2 (some "example.com") "example.com" "127.0.0.1" _ (by decide)⟩

/-- **C7.** Startup validation: whenever the URL is not absolute, the history
capacity is below 1, the timeout or the worker count is not strictly
positive, the resolver-override string lacks a colon, or the duration string
does not parse, the startup gate refuses to start, so no worker is ever
launched with that configuration. -/
theorem C7_invalid_args_refused (parses : String → Bool) (args : Args)
    (h : args.url_is_absolute = false ∨ args.request_history < 1 ∨
      args.timeout ≤ 0 ∨ args.workers ≤ 0 ∨
      (∃ s, args.resolve = some s ∧ s.contains ':' = false) ∨
      (∃ d, args.duration = some d ∧ parses d = false)) :
    startup parses args = .refusedAtStartup := by
  have hv : ¬ (are_args_valid parses args = true) := by
    intro hvalid
    simp only [are_args_valid, Bool.and_eq_true, decide_eq_true_eq] at hvalid
    obtain ⟨⟨⟨⟨⟨h1, h2⟩, h3⟩, h4⟩, h5⟩, h6⟩ := hvalid
    rcases h with h | h | h | h | ⟨s, hs, hc⟩ | ⟨d, hd, hp⟩
    · rw [h1] at h; cases h
    · omega
    · exact absurd h3 (not_lt.mpr h)
    · omega
    · rw [hs] at h5; simp at h5; rw [h5] at hc; cases hc
    · rw [hd] at h6; simp [duration_is_valid] at h6; rw [h6] at hp; cases hp
  simp [startup, hv]

/-- Witness for C7: a configuration with zero workers is refused. -/
theorem C7_invalid_args_refused_witness :
    startup (fun _ => true)
      { url_is_absolute := true, request_history := 1000, timeout := 1,
        workers := 0, resolve := none, duration := none } =
      .refusedAtStartup :=
  C7_invalid_args_refused _ _
    (Or.inr (Or.inr (Or.inr (Or.inl (by decide)))))

end Webtop
